import Mathlib

/-!
Verification of the travel-destinations search client.

The development shallowly embeds the search-and-ranking pipeline of the
client (`src/App.tsx`, plus the prioritizing variant of the component):
the debounce combinator, the query result cache, the haversine distance,
the proximity ranker `getClosestDestinations`, the prioritizer
`prioritizeDestinations`, and the coordinator handlers
`handleInputChange` / `handleSelection`.

Modelling conventions:
* JavaScript numbers are embedded as exact values: coordinates (numeric
  literals in the data) as `ℚ`, and the transcendental haversine
  computation over `ℝ`.  `Math.sin`, `Math.cos`, `Math.sqrt`, `Math.atan2`
  become `Real.sin`, `Real.cos`, `Real.sqrt` and `Complex.arg`.
* `Array.prototype.sort` with a consistent comparator is a stable sort and
  is embedded as `List.insertionSort` on the preorder induced by the
  comparator (`a` may precede `b` exactly when `comparator a b ≤ 0`).
* The module-level mutable `cachedResults` record and the React `useState`
  cells become fields of an explicit `SessionState`, and each handler is a
  function on that state.  The external Destination Store
  (`searchDestinations` / `getDestinationDetails`, imported from
  `fake-api`) is an opaque collaborator and enters as a function parameter
  of the handlers; a rejected promise carries `some msg` when the thrown
  value is an `Error` (whose message is `msg`), and `none` otherwise.
* `String.prototype.localeCompare` on the ASCII names involved is embedded
  as code-point comparison of strings (Lean's `≤` on `String`).
* Timers: `setTimeout`/`clearTimeout` are embedded by tagging each
  invocation of a debounced function with an abstract arrival time `ℕ`;
  the closure's `timeout` variable holds the scheduled fire time and the
  captured arguments of the pending timer.
-/

namespace TravelDest

/-- A latitude/longitude pair in degrees, the `{lat, lon}` argument shape of
`haversineDistance`. -/
structure Coords where
  lat : ℚ
  lon : ℚ
deriving DecidableEq

/-- The `Destination` record of `fake-api`: id, display strings and
coordinates in signed degrees. -/
structure Destination where
  id : ℕ
  name : String
  country : String
  description : String
  climate : String
  currency : String
  latitude : ℚ
  longitude : ℚ
deriving DecidableEq

/-- The function `Math.atan2 y x`: the angle of the point `(x, y)`, in
`(-π, π]`, with `atan2 0 0 = 0`; this is exactly `Complex.arg` of
`x + y·i`. -/
noncomputable def atan2 (y x : ℝ) : ℝ :=
  Complex.arg ⟨x, y⟩

/-- The binding `const dLat = (coords2.lat - coords1.lat) * (Math.PI / 180)`
of `haversineDistance`. -/
noncomputable def havDLat (coords1 coords2 : Coords) : ℝ :=
  ((coords2.lat : ℝ) - (coords1.lat : ℝ)) * (Real.pi / 180)

/-- The binding `const dLon = (coords2.lon - coords1.lon) * (Math.PI / 180)`
of `haversineDistance`. -/
noncomputable def havDLon (coords1 coords2 : Coords) : ℝ :=
  ((coords2.lon : ℝ) - (coords1.lon : ℝ)) * (Real.pi / 180)

/-- The binding `const a = Math.sin(dLat/2)*Math.sin(dLat/2) +
Math.cos(coords1.lat*(Math.PI/180)) * Math.cos(coords2.lat*(Math.PI/180)) *
Math.sin(dLon/2)*Math.sin(dLon/2)` of `haversineDistance`. -/
noncomputable def havA (coords1 coords2 : Coords) : ℝ :=
  Real.sin (havDLat coords1 coords2 / 2) * Real.sin (havDLat coords1 coords2 / 2) +
    Real.cos ((coords1.lat : ℝ) * (Real.pi / 180)) *
      Real.cos ((coords2.lat : ℝ) * (Real.pi / 180)) *
      Real.sin (havDLon coords1 coords2 / 2) * Real.sin (havDLon coords1 coords2 / 2)

/-- The function `haversineDistance` of `src/App.tsx`:
`return R * 2 * Math.atan2(Math.sqrt(a), Math.sqrt(1 - a))` with `R = 6371`. -/
noncomputable def haversineDistance (coords1 coords2 : Coords) : ℝ :=
  6371 * 2 * atan2 (Real.sqrt (havA coords1 coords2)) (Real.sqrt (1 - havA coords1 coords2))

/-- The intermediate value `a` as the specification writes it:
`a = sin²(Δlat/2) + cos(lat1)·cos(lat2)·sin²(Δlon/2)` after degree-to-radian
conversion. -/
noncomputable def specHavA (coords1 coords2 : Coords) : ℝ :=
  Real.sin (havDLat coords1 coords2 / 2) ^ 2 +
    Real.cos ((coords1.lat : ℝ) * (Real.pi / 180)) *
      Real.cos ((coords2.lat : ℝ) * (Real.pi / 180)) *
      Real.sin (havDLon coords1 coords2 / 2) ^ 2

/-- The element shape `{ ...opt, distance }` produced inside
`getClosestDestinations`: a destination together with its computed distance
from the reference. -/
structure RankedDestination extends Destination where
  distance : ℝ

/-- The order induced by the comparator `(a, b) => a.distance - b.distance`
passed to `sort` in `getClosestDestinations`. -/
def distLe (a b : RankedDestination) : Prop :=
  a.distance ≤ b.distance

noncomputable instance : DecidableRel distLe :=
  fun a b => inferInstanceAs (Decidable (a.distance ≤ b.distance))

instance : IsTotal RankedDestination distLe :=
  ⟨fun a b => le_total a.distance b.distance⟩

instance : IsTrans RankedDestination distLe :=
  ⟨fun _ _ _ h1 h2 => le_trans h1 h2⟩

/-- The function `getClosestDestinations` of `src/App.tsx`: filter out the
reference by `id`, attach the haversine distance from the reference to each
remaining option, sort ascending by distance (stable), and keep the first
five.  The component reads `options` from its state; here the option list is
an explicit argument. -/
noncomputable def getClosestDestinations (options : List Destination)
    (destination : Destination) : List RankedDestination :=
  ((((options.filter (fun opt => opt.id != destination.id)).map
      (fun opt => ({ toDestination := opt
                     distance := haversineDistance
                       ⟨destination.latitude, destination.longitude⟩
                       ⟨opt.latitude, opt.longitude⟩ } : RankedDestination))).insertionSort
    distLe).take 5)

/-- State of one debounce closure produced by `debounce(func, wait)`:
`timeout` holds the scheduled fire time and the captured arguments of the
pending timer, if any, and `fired` records the argument values `func` has
already been applied to, in order. -/
structure DebounceState (α : Type) where
  timeout : Option (ℕ × α)
  fired : List α
deriving DecidableEq

/-- One invocation, at time `t` with arguments `args`, of the function
returned by `debounce`: `if (timeout) clearTimeout(timeout);
timeout = setTimeout(() => func.apply(context, args), wait)`.  A pending
timer whose fire time is still in the future is cancelled before it can
fire; a timer whose fire time has already passed fired at that time (its
arguments are appended to `fired`) and clearing the stale handle is a
no-op. -/
def debounceInvoke {α : Type} (wait : ℕ) (s : DebounceState α) (t : ℕ) (args : α) :
    DebounceState α :=
  match s.timeout with
  | none => { s with timeout := some (t + wait, args) }
  | some (fireTime, pending) =>
    if t < fireTime then { s with timeout := some (t + wait, args) }
    else { timeout := some (t + wait, args), fired := s.fired ++ [pending] }

/-- The argument values the wrapped action ultimately executes with, once
the invocation stream ends and the last pending timer, if any, fires. -/
def debounceFlush {α : Type} (s : DebounceState α) : List α :=
  match s.timeout with
  | none => s.fired
  | some (_, pending) => s.fired ++ [pending]

/-- Run one debounce closure over a stream of timed invocations, starting
from the fresh closure state `timeout = null`, and collect the argument
values the wrapped action executes with. -/
def debounceRun {α : Type} (wait : ℕ) (events : List (ℕ × α)) : List α :=
  debounceFlush (events.foldl (fun s e => debounceInvoke wait s e.1 e.2) ⟨none, []⟩)

/-- Lexicographic code-point comparison of character sequences: `true`
exactly when the first sequence compares less than or equal to the second.
This is the embedding of `x.localeCompare(y) ≤ 0` on the ASCII names
involved. -/
def charListLe : List Char → List Char → Bool
  | [], _ => true
  | _ :: _, [] => false
  | a :: as, b :: bs => if a < b then true else if b < a then false else charListLe as bs

/-- The order `a.name.localeCompare(b.name) ≤ 0` as a proposition. -/
def nameLe (a b : String) : Prop :=
  charListLe a.data b.data = true

instance : DecidableRel nameLe := fun a b =>
  inferInstanceAs (Decidable (charListLe a.data b.data = true))

/-- The check `a.name.toLowerCase().startsWith(query[0].toLowerCase())` of
`prioritizeDestinations` (prioritizing variant of the component):
`query[0]` is the one-character string holding the first character of the
query, and both sides are lowered before the prefix test. -/
def startsWithQueryChar (query : String) (name : String) : Bool :=
  List.isPrefixOf ((query.data.take 1).map Char.toLower) (name.data.map Char.toLower)

/-- The order induced by the comparator of `prioritizeDestinations`:
`a` may precede `b` exactly when the comparator returns a non-positive
value, i.e. when `a` starts with the query's first character and `b` does
not, or the partition flags agree and `a.name.localeCompare(b.name) ≤ 0`
(locale comparison embedded as code-point string comparison). -/
def prioritizeLe (query : String) (a b : Destination) : Prop :=
  if startsWithQueryChar query a.name = true ∧ startsWithQueryChar query b.name = false then
    True
  else if startsWithQueryChar query a.name = false ∧ startsWithQueryChar query b.name = true then
    False
  else
    nameLe a.name b.name

instance (query : String) : DecidableRel (prioritizeLe query) := fun a b =>
  inferInstanceAs (Decidable
    (if startsWithQueryChar query a.name = true ∧ startsWithQueryChar query b.name = false then
      True
    else if startsWithQueryChar query a.name = false ∧
        startsWithQueryChar query b.name = true then
      False
    else
      nameLe a.name b.name))

instance (query : String) : IsTotal Destination (prioritizeLe query) := by
  constructor
  intro a b
  have htot : ∀ as bs : List Char, charListLe as bs = true ∨ charListLe bs as = true := by
    intro as
    induction as with
    | nil => intro bs; exact Or.inl rfl
    | cons x xs ih =>
      intro bs
      cases bs with
      | nil => exact Or.inr rfl
      | cons y ys =>
        rcases lt_trichotomy x y with h | h | h
        · exact Or.inl (by simp [charListLe, h])
        · subst h
          rcases ih ys with hx | hx
          · exact Or.inl (by simp [charListLe, hx])
          · exact Or.inr (by simp [charListLe, hx])
        · exact Or.inr (by simp [charListLe, h])
  unfold prioritizeLe nameLe
  rcases htot a.name.data b.name.data with h | h <;> split_ifs <;> simp_all

instance (query : String) : IsTrans Destination (prioritizeLe query) := by
  constructor
  intro a b c hab hbc
  have hiff : ∀ (x y : Char) (xs ys : List Char),
      charListLe (x :: xs) (y :: ys) = true ↔ x < y ∨ (x = y ∧ charListLe xs ys = true) := by
    intro x y xs ys
    rcases lt_trichotomy x y with h | h | h
    · simp [charListLe, h]
    · subst h
      simp [charListLe]
    · simp [charListLe, lt_asymm h, h, h.ne']
  have htrans : ∀ as bs cs : List Char, charListLe as bs = true → charListLe bs cs = true →
      charListLe as cs = true := by
    intro as
    induction as with
    | nil => intro bs cs _ _; rfl
    | cons x xs ih =>
      intro bs cs h1 h2
      cases bs with
      | nil => exact absurd h1 (by simp [charListLe])
      | cons y ys =>
        cases cs with
        | nil => exact absurd h2 (by simp [charListLe])
        | cons z zs =>
          rw [hiff] at h1 h2 ⊢
          rcases h1 with h1 | ⟨rfl, h1⟩
          · rcases h2 with h2 | ⟨rfl, h2⟩
            · exact Or.inl (lt_trans h1 h2)
            · exact Or.inl h1
          · rcases h2 with h2 | ⟨rfl, h2⟩
            · exact Or.inl h2
            · exact Or.inr ⟨rfl, ih _ _ h1 h2⟩
  unfold prioritizeLe nameLe at hab hbc ⊢
  split_ifs at hab hbc ⊢ <;> simp_all <;> exact htrans _ _ _ hab hbc

/-- The function `prioritizeDestinations` of the prioritizing variant:
`destinations.sort(comparator)` with the starts-with-first-character, then
alphabetical, comparator.  `Array.prototype.sort` is stable and sorts by
the preorder the comparator induces. -/
def prioritizeDestinations (destinations : List Destination) (query : String) :
    List Destination :=
  destinations.insertionSort (prioritizeLe query)

/-- The session-long state of the search coordinator: the `useState` cells
of the component together with the module-level `cachedResults` record
(embedded as an association list keyed by the literal query string). -/
structure SessionState where
  inputValue : String
  options : List Destination
  selectedDestination : Option Destination
  destinationDetails : Option Destination
  error : Option String
  cachedResults : List (String × List Destination)
deriving DecidableEq

/-- The read `cachedResults[query]`: exact-match lookup on the literal query
string. -/
def lookupCache : List (String × List Destination) → String → Option (List Destination)
  | [], _ => none
  | e :: es, query => if e.1 = query then some e.2 else lookupCache es query

/-- The write `cachedResults[query] = results` for a key not yet present. -/
def cacheInsert (cache : List (String × List Destination)) (query : String)
    (results : List Destination) : List (String × List Destination) :=
  cache ++ [(query, results)]

/-- Replacement of the array object the cache references for `query`: the
effect on the cache of an in-place mutation of that array. -/
def cacheUpdate (cache : List (String × List Destination)) (query : String)
    (contents : List Destination) : List (String × List Destination) :=
  cache.map (fun e => if e.1 = query then (e.1, contents) else e)

/-- The handler expression
`err instanceof Error ? err.message : "An unknown error occurred"`. -/
def errorMessage (err : Option String) : String :=
  err.getD "An unknown error occurred"

/-- The body of the debounced callback of `handleInputChange` in
`src/App.tsx` (cache check, remote `searchDestinations`, cache write, state
updates), as a function of the query it captured.  The external
`searchDestinations` is the parameter `api`; the returned boolean records
whether the remote lookup was invoked. -/
def runSearch (api : String → Except (Option String) (List Destination))
    (s : SessionState) (query : String) : SessionState × Bool :=
  match lookupCache s.cachedResults query with
  | some cached => ({ s with options := cached }, false)
  | none =>
    match api query with
    | Except.ok results =>
      ({ s with cachedResults := cacheInsert s.cachedResults query results
                options := results }, true)
    | Except.error err => ({ s with error := some (errorMessage err) }, true)

/-- The synchronous part of `handleInputChange` in `src/App.tsx`: store the
new input value; when it is empty, clear the option list and return without
scheduling anything; otherwise schedule a debounced search for the new
value (returned as `some query`). -/
def handleInputChange (s : SessionState) (value : String) :
    SessionState × Option String :=
  let s1 := { s with inputValue := value }
  if value = "" then ({ s1 with options := [] }, none)
  else (s1, some value)

/-- The handler `handleSelection` of `src/App.tsx`: synchronously record the
selection, then fetch the detail for the selected destination's name
(external `getDestinationDetails`, the parameter `detailApi`); on success
store the detail, on failure store the error message.  The URL-parameter
update touches no session state and is omitted. -/
def handleSelection (detailApi : String → Except (Option String) Destination)
    (s : SessionState) (destination : Destination) : SessionState :=
  let s1 := { s with selectedDestination := some destination }
  match detailApi destination.name with
  | Except.ok details => { s1 with destinationDetails := some details }
  | Except.error err => { s1 with error := some (errorMessage err) }

/-- The body of the debounced callback of `handleInputChange` in the
prioritizing variant.  On a cache hit it evaluates
`setOptions(prioritizeDestinations(cachedResults[query], query))`: `sort`
reorders the cached array in place and returns that same array, so the
cache entry afterwards holds the prioritized array `options` is set to.
On a miss it stores the fetched results and prioritizes them in place the
same way (`cachedResults[query] = results` then
`setOptions(prioritizeDestinations(results, query))`, with both names
aliasing one array object). -/
def runSearchPrio (api : String → Except (Option String) (List Destination))
    (s : SessionState) (query : String) : SessionState × Bool :=
  match lookupCache s.cachedResults query with
  | some cached =>
    ({ s with options := prioritizeDestinations cached query
              cachedResults :=
                cacheUpdate s.cachedResults query
                  (prioritizeDestinations cached query) }, false)
  | none =>
    match api query with
    | Except.ok results =>
      ({ s with cachedResults :=
                  cacheInsert s.cachedResults query (prioritizeDestinations results query)
                options := prioritizeDestinations results query }, true)
    | Except.error err => ({ s with error := some (errorMessage err) }, true)

/-- One step of the search coordinator of `src/App.tsx`: an input-change
event, the firing of a debounced search callback, or a selection together
with the completion of its detail fetch. -/
inductive CoordinatorStep where
  | inputChange (value : String)
  | debouncedSearch (api : String → Except (Option String) (List Destination)) (query : String)
  | selection (detailApi : String → Except (Option String) Destination)
      (destination : Destination)

/-- The effect of one coordinator step on the session state. -/
def coordinatorStep : CoordinatorStep → SessionState → SessionState
  | CoordinatorStep.inputChange v, s => (handleInputChange s v).1
  | CoordinatorStep.debouncedSearch api q, s => (runSearch api s q).1
  | CoordinatorStep.selection dapi d, s => handleSelection dapi s d

/-- Fixture: the destination named Banana. -/
def destBanana : Destination :=
  ⟨1, "Banana", "", "", "", "", 0, 0⟩

/-- Fixture: the destination named Apple. -/
def destApple : Destination :=
  ⟨2, "Apple", "", "", "", "", 0, 0⟩

/-- Fixture: the destination named Avocado. -/
def destAvocado : Destination :=
  ⟨3, "Avocado", "", "", "", "", 0, 0⟩

/-- Fixture: a destination named Paris. -/
def destParis : Destination :=
  ⟨1, "Paris", "France", "", "", "", 48, 2⟩

/-- Fixture: a session state with a selection, a loaded detail and an
empty cache. -/
def fixtureState : SessionState :=
  ⟨"x", [destParis], some destParis, some destParis, none, []⟩

/-- Fixture: a session state whose error is set. -/
def fixtureErrState : SessionState :=
  ⟨"x", [], none, none, some "boom", []⟩

theorem havA_eq_specHavA (c1 c2 : Coords) : havA c1 c2 = specHavA c1 c2 := by
  unfold havA specHavA
  ring

theorem havA_symm (c1 c2 : Coords) : havA c1 c2 = havA c2 c1 := by
  have key : ∀ a b : ℝ, Real.sin ((a - b) * (Real.pi / 180) / 2) =
      -Real.sin ((b - a) * (Real.pi / 180) / 2) := by
    intro a b
    have h : (a - b) * (Real.pi / 180) / 2 = -((b - a) * (Real.pi / 180) / 2) := by ring
    rw [h, Real.sin_neg]
  unfold havA havDLat havDLon
  rw [key ((c2.lat : ℝ)) ((c1.lat : ℝ)), key ((c2.lon : ℝ)) ((c1.lon : ℝ))]
  ring

theorem havA_self (c : Coords) : havA c c = 0 := by
  unfold havA havDLat havDLon
  simp

theorem atan2_nonneg_left (y x : ℝ) (hy : 0 ≤ y) : 0 ≤ atan2 y x :=
  Complex.arg_nonneg_iff.2 hy

theorem atan2_zero_one : atan2 0 1 = 0 := by
  unfold atan2
  have h : (⟨1, 0⟩ : ℂ) = 1 := by
    apply Complex.ext <;> simp
  rw [h]
  exact Complex.arg_one

/-- Claim C4: for coordinate points with latitudes in `[-90, 90]` degrees,
`haversineDistance` is non-negative and symmetric, vanishes on equal points,
and equals the specification's formula `2·6371·atan2(√a, √(1-a))` with
`a = sin²(Δlat/2) + cos lat₁ · cos lat₂ · sin²(Δlon/2)` after
degree-to-radian conversion. -/
theorem haversineDistance_spec (c1 c2 : Coords)
    (h1 : -90 ≤ c1.lat ∧ c1.lat ≤ 90) (h2 : -90 ≤ c2.lat ∧ c2.lat ≤ 90) :
    0 ≤ haversineDistance c1 c2 ∧
      haversineDistance c1 c2 = haversineDistance c2 c1 ∧
      haversineDistance c1 c1 = 0 ∧
      haversineDistance c1 c2 =
        2 * 6371 * atan2 (Real.sqrt (specHavA c1 c2)) (Real.sqrt (1 - specHavA c1 c2)) := by
  refine ⟨?_, ?_, ?_, ?_⟩
  · exact mul_nonneg (by norm_num) (atan2_nonneg_left _ _ (Real.sqrt_nonneg _))
  · unfold haversineDistance
    rw [havA_symm]
  · unfold haversineDistance
    rw [havA_self]
    simp [atan2_zero_one]
  · unfold haversineDistance
    rw [havA_eq_specHavA]
    ring

/-- Witness for C4 at two points on the equator. -/
theorem haversineDistance_spec_witness :
    ((-90 : ℚ) ≤ 0 ∧ (0 : ℚ) ≤ 90) ∧
      (0 ≤ haversineDistance ⟨0, 0⟩ ⟨0, 10⟩ ∧
        haversineDistance ⟨0, 0⟩ ⟨0, 10⟩ = haversineDistance ⟨0, 10⟩ ⟨0, 0⟩ ∧
        haversineDistance ⟨0, 0⟩ ⟨0, 0⟩ = 0 ∧
        haversineDistance ⟨0, 0⟩ ⟨0, 10⟩ =
          2 * 6371 * atan2 (Real.sqrt (specHavA ⟨0, 0⟩ ⟨0, 10⟩))
            (Real.sqrt (1 - specHavA ⟨0, 0⟩ ⟨0, 10⟩))) :=
  ⟨by norm_num,
    haversineDistance_spec ⟨0, 0⟩ ⟨0, 10⟩ (by norm_num) (by norm_num)⟩

theorem debounce_aux {α : Type} (wait : ℕ) :
    ∀ (events : List (ℕ × α)) (fired : List α) (t : ℕ) (p : α),
      List.Chain (fun x y => x.1 ≤ y.1 ∧ y.1 < x.1 + wait) (t, p) events →
      debounceFlush (events.foldl (fun s e => debounceInvoke wait s e.1 e.2)
          ⟨some (t + wait, p), fired⟩) =
        fired ++ [(((t, p) :: events).getLast (List.cons_ne_nil _ _)).2] := by
  intro events
  induction events with
  | nil =>
    intro fired t p _
    simp [debounceFlush]
  | cons e es ih =>
    intro fired t p hchain
    rcases e with ⟨t1, p1⟩
    rw [List.chain_cons] at hchain
    obtain ⟨⟨_, hlt⟩, hrest⟩ := hchain
    have hstep : debounceInvoke wait ⟨some (t + wait, p), fired⟩ t1 p1 =
        ⟨some (t1 + wait, p1), fired⟩ := by
      simp [debounceInvoke, hlt]
    rw [List.foldl_cons]
    simp only at hstep
    rw [hstep]
    rw [ih fired t1 p1 hrest]
    congr 1

/-- Claim C2: for a stream of invocations of one debounced function in
which each invocation arrives less than the wait interval after the
previous one, exactly one action ultimately executes, with the arguments
of the last invocation; intermediate invocations are dropped, not
buffered. -/
theorem debounce_spec {α : Type} (wait : ℕ) (e : ℕ × α) (rest : List (ℕ × α))
    (hchain : List.Chain (fun x y => x.1 ≤ y.1 ∧ y.1 < x.1 + wait) e rest) :
    debounceRun wait (e :: rest) = [((e :: rest).getLast (List.cons_ne_nil e rest)).2] := by
  unfold debounceRun
  rcases e with ⟨t, p⟩
  rw [List.foldl_cons]
  have h0 : debounceInvoke wait ⟨none, []⟩ t p = ⟨some (t + wait, p), []⟩ := rfl
  simp only at h0
  rw [h0]
  simpa using debounce_aux wait rest [] t p hchain

/-- Witness for C2: three keystrokes 100 ms and 150 ms apart under a
300 ms wait execute the action once, with the last arguments. -/
theorem debounce_spec_witness :
    List.Chain (fun x y : ℕ × String => x.1 ≤ y.1 ∧ y.1 < x.1 + 300) (0, "p")
        [(100, "pa"), (250, "par")] ∧
      debounceRun 300 [(0, "p"), (100, "pa"), (250, "par")] = ["par"] :=
  ⟨by norm_num [List.chain_cons],
    debounce_spec 300 (0, "p") [(100, "pa"), (250, "par")] (by norm_num [List.chain_cons])⟩

theorem filter_ne_length (d : ℕ) (l : List Destination)
    (hp : l.Pairwise (fun a b => a.id ≠ b.id)) :
    (l.filter (fun o => o.id != d)).length =
      if d ∈ l.map Destination.id then l.length - 1 else l.length := by
  induction l with
  | nil => simp
  | cons hd tl ih =>
    rw [List.pairwise_cons] at hp
    obtain ⟨hhd, htl⟩ := hp
    by_cases hid : hd.id = d
    · have hall : ∀ o ∈ tl, (o.id != d) = true := by
        intro o ho
        have hne := hhd o ho
        rw [← hid]
        simpa [bne_iff_ne] using (Ne.symm hne)
      rw [List.filter_cons]
      have hhdf : (hd.id != d) = false := by simp [hid]
      rw [hhdf]
      simp only [Bool.false_eq_true, if_false]
      rw [List.filter_eq_self.mpr hall]
      have hmem : d ∈ (hd :: tl).map Destination.id := by simp [hid]
      rw [if_pos hmem]
      simp
    · rw [List.filter_cons]
      have hhdt : (hd.id != d) = true := by simpa [bne_iff_ne] using hid
      rw [hhdt]
      simp only [if_true, List.length_cons]
      rw [ih htl]
      have hiff : d ∈ (hd :: tl).map Destination.id ↔ d ∈ tl.map Destination.id := by
        simp only [List.map_cons, List.mem_cons]
        constructor
        · rintro (h | h)
          · exact absurd h.symm hid
          · exact h
        · exact Or.inr
      by_cases hdm : d ∈ tl.map Destination.id
      · have hlen : 0 < tl.length := by
          have := List.ne_nil_of_mem hdm
          have hpos := List.length_pos.mpr this
          rwa [List.length_map] at hpos
        rw [if_pos hdm, if_pos (hiff.mpr hdm)]
        omega
      · rw [if_neg hdm, if_neg (fun h => hdm (hiff.mp h))]

theorem take5_sorted (l : List RankedDestination) :
    ((l.insertionSort distLe).take 5).Pairwise distLe :=
  List.Pairwise.sublist (List.take_sublist 5 _) (List.sorted_insertionSort distLe l)

theorem mem_take5_sort {x : RankedDestination} {l : List RankedDestination}
    (hx : x ∈ (l.insertionSort distLe).take 5) : x ∈ l :=
  (List.perm_insertionSort distLe l).mem_iff.1 ((List.take_sublist 5 _).subset hx)

/-- Claim C1: for a reference destination and an option list with
pairwise-distinct ids, `getClosestDestinations` returns a list of length
`min 5 (|options| - 1)` when a destination with the reference's id is
present and `min 5 |options|` otherwise, no element of which has the
reference's id, sorted ascending by haversine distance from the
reference. -/
theorem getClosestDestinations_spec (options : List Destination) (destination : Destination)
    (hids : options.Pairwise (fun a b => a.id ≠ b.id)) :
    (getClosestDestinations options destination).length =
        min 5 (if destination.id ∈ options.map Destination.id
          then options.length - 1 else options.length) ∧
      (∀ x ∈ getClosestDestinations options destination, x.id ≠ destination.id) ∧
      (getClosestDestinations options destination).Pairwise (fun a b =>
        haversineDistance ⟨destination.latitude, destination.longitude⟩
            ⟨a.latitude, a.longitude⟩ ≤
          haversineDistance ⟨destination.latitude, destination.longitude⟩
            ⟨b.latitude, b.longitude⟩) := by
  refine ⟨?_, ?_, ?_⟩
  · unfold getClosestDestinations
    rw [List.length_take, List.length_insertionSort, List.length_map,
      filter_ne_length destination.id options hids]
  · intro x hx
    unfold getClosestDestinations at hx
    obtain ⟨opt, hopt, rfl⟩ := List.mem_map.1 (mem_take5_sort hx)
    have hne := (List.mem_filter.1 hopt).2
    simpa [bne_iff_ne] using hne
  · unfold getClosestDestinations
    have hdist : ∀ y ∈ (((options.filter (fun opt => opt.id != destination.id)).map
        (fun opt => ({ toDestination := opt
                       distance := haversineDistance
                         ⟨destination.latitude, destination.longitude⟩
                         ⟨opt.latitude, opt.longitude⟩ } :
          RankedDestination))).insertionSort distLe).take 5,
        y.distance = haversineDistance ⟨destination.latitude, destination.longitude⟩
          ⟨y.latitude, y.longitude⟩ := by
      intro y hy
      obtain ⟨opt, _, rfl⟩ := List.mem_map.1 (mem_take5_sort hy)
      rfl
    refine List.Pairwise.imp_of_mem ?_ (take5_sorted _)
    intro a b ha hb hab
    unfold distLe at hab
    rw [hdist a ha, hdist b hb] at hab
    exact hab

/-- Witness for C1 on a three-element option list containing the
reference. -/
theorem getClosestDestinations_spec_witness :
    ([destBanana, destApple, destAvocado].Pairwise (fun a b => a.id ≠ b.id)) ∧
      ((getClosestDestinations [destBanana, destApple, destAvocado] destApple).length =
          min 5 (if destApple.id ∈ [destBanana, destApple, destAvocado].map Destination.id
            then [destBanana, destApple, destAvocado].length - 1
            else [destBanana, destApple, destAvocado].length) ∧
        (∀ x ∈ getClosestDestinations [destBanana, destApple, destAvocado] destApple,
          x.id ≠ destApple.id) ∧
        (getClosestDestinations [destBanana, destApple, destAvocado] destApple).Pairwise
          (fun a b =>
            haversineDistance ⟨destApple.latitude, destApple.longitude⟩
                ⟨a.latitude, a.longitude⟩ ≤
              haversineDistance ⟨destApple.latitude, destApple.longitude⟩
                ⟨b.latitude, b.longitude⟩)) :=
  ⟨by decide, getClosestDestinations_spec [destBanana, destApple, destAvocado] destApple
    (by decide)⟩

/-- Claim C3: processing a non-empty query whose result list is already
cached invokes no remote lookup and produces exactly the stored list as
the option list; cache lookup is exact-match on the literal query string,
so an entry stored under a different string never serves the query. -/
theorem cache_hit_spec (api : String → Except (Option String) (List Destination))
    (s : SessionState) (query : String) (stored : List Destination)
    (hq : query ≠ "") (hhit : lookupCache s.cachedResults query = some stored) :
    (runSearch api s query).2 = false ∧
      (runSearch api s query).1 = { s with options := stored } ∧
      (∀ (other : String) (l : List Destination), other ≠ query →
        lookupCache [(other, l)] query = none) := by
  refine ⟨?_, ?_, ?_⟩
  · unfold runSearch
    rw [hhit]
  · unfold runSearch
    rw [hhit]
  · intro other l hne
    simp [lookupCache, hne]

/-- Witness for C3 on a one-entry cache hit for the query "par". -/
theorem cache_hit_spec_witness :
    (("par" : String) ≠ "" ∧
        lookupCache [("par", [destParis])] "par" = some [destParis]) ∧
      ((runSearch (fun _ => Except.error none)
          ⟨"par", [], none, none, none, [("par", [destParis])]⟩ "par").2 = false ∧
        (runSearch (fun _ => Except.error none)
            ⟨"par", [], none, none, none, [("par", [destParis])]⟩ "par").1 =
          { (⟨"par", [], none, none, none, [("par", [destParis])]⟩ : SessionState) with
              options := [destParis] } ∧
        (∀ (other : String) (l : List Destination), other ≠ "par" →
          lookupCache [(other, l)] "par" = none)) :=
  ⟨⟨by decide, by decide⟩,
    cache_hit_spec (fun _ => Except.error none)
      ⟨"par", [], none, none, none, [("par", [destParis])]⟩ "par" [destParis]
      (by decide) (by decide)⟩

/-- Claim C7: a failing remote search stores a displayable message (the
failure's own message when it is an `Error`, else the generic fallback) and
leaves options, selection and detail unchanged; a failing detail fetch does
the same while the selection remains the destination just chosen. -/
theorem lookup_failure_spec
    (api : String → Except (Option String) (List Destination))
    (detailApi : String → Except (Option String) Destination)
    (s t : SessionState) (query : String) (destination : Destination)
    (err1 err2 : Option String)
    (hmiss : lookupCache s.cachedResults query = none)
    (hfail : api query = Except.error err1)
    (hdfail : detailApi destination.name = Except.error err2) :
    ((runSearch api s query).1.error = some (errorMessage err1) ∧
      (runSearch api s query).1.options = s.options ∧
      (runSearch api s query).1.selectedDestination = s.selectedDestination ∧
      (runSearch api s query).1.destinationDetails = s.destinationDetails) ∧
      ((handleSelection detailApi t destination).error = some (errorMessage err2) ∧
        (handleSelection detailApi t destination).options = t.options ∧
        (handleSelection detailApi t destination).destinationDetails =
          t.destinationDetails ∧
        (handleSelection detailApi t destination).selectedDestination = some destination) := by
  constructor
  · unfold runSearch
    rw [hmiss, hfail]
    exact ⟨rfl, rfl, rfl, rfl⟩
  · unfold handleSelection
    rw [hdfail]
    exact ⟨rfl, rfl, rfl, rfl⟩

/-- Witness for C7 with a search failing on an `Error` carrying a message
and a detail fetch failing on a non-`Error` value. -/
theorem lookup_failure_spec_witness :
    (lookupCache (fixtureState.cachedResults) "x" = none ∧
        (fun _ : String =>
          (Except.error (some "Network error") : Except (Option String) (List Destination)))
            "x" = Except.error (some "Network error") ∧
        (fun _ : String => (Except.error none : Except (Option String) Destination))
            destParis.name = Except.error none) ∧
      (((runSearch (fun _ => Except.error (some "Network error")) fixtureState "x").1.error =
          some (errorMessage (some "Network error")) ∧
        (runSearch (fun _ => Except.error (some "Network error")) fixtureState "x").1.options =
          fixtureState.options ∧
        (runSearch (fun _ => Except.error (some "Network error"))
            fixtureState "x").1.selectedDestination = fixtureState.selectedDestination ∧
        (runSearch (fun _ => Except.error (some "Network error"))
            fixtureState "x").1.destinationDetails = fixtureState.destinationDetails) ∧
        ((handleSelection (fun _ => Except.error none) fixtureState destParis).error =
            some (errorMessage none) ∧
          (handleSelection (fun _ => Except.error none) fixtureState destParis).options =
            fixtureState.options ∧
          (handleSelection (fun _ => Except.error none)
              fixtureState destParis).destinationDetails =
            fixtureState.destinationDetails ∧
          (handleSelection (fun _ => Except.error none)
              fixtureState destParis).selectedDestination = some destParis)) :=
  ⟨⟨by decide, rfl, rfl⟩,
    lookup_failure_spec (fun _ => Except.error (some "Network error"))
      (fun _ => Except.error none) fixtureState fixtureState "x" destParis
      (some "Network error") none (by decide) rfl rfl⟩

/-- Claim C8: an input-change event with empty new value empties the option
list unconditionally and issues no search for that event. -/
theorem clear_input_spec (s : SessionState) :
    (handleInputChange s "").1.options = [] ∧ (handleInputChange s "").2 = none :=
  ⟨rfl, rfl⟩

/-- Counterexample to C9 as stated: clearing the input does not reset the
selection or the detail; on `fixtureState`, whose selection and detail are
set, both survive an input-change event with empty new value. -/
theorem clear_input_selection_cex :
    ¬ ((handleInputChange fixtureState "").1.selectedDestination = none ∧
      (handleInputChange fixtureState "").1.destinationDetails = none) := by
  decide

/-- Claim C9, amended: no input-change event resets the selection or the
detail — for every input-change event, with empty or non-empty new value,
both are unchanged; clearing the input clears only the option list. -/
theorem input_change_preserves_selection (s : SessionState) (value : String) :
    (handleInputChange s value).1.selectedDestination = s.selectedDestination ∧
      (handleInputChange s value).1.destinationDetails = s.destinationDetails := by
  unfold handleInputChange
  by_cases h : value = "" <;> simp [h]

/-- Claim C10: every coordinator step preserves a set error — once the
session error state is non-null, no input change, debounced search or
selection (with its detail-fetch completion) resets it to absent. -/
theorem error_persists (step : CoordinatorStep) (s : SessionState)
    (h : s.error ≠ none) : (coordinatorStep step s).error ≠ none := by
  cases step with
  | inputChange v =>
    simp only [coordinatorStep]
    unfold handleInputChange
    by_cases hv : v = "" <;> simp [hv] <;> exact h
  | debouncedSearch api q =>
    simp only [coordinatorStep]
    unfold runSearch
    cases hl : lookupCache s.cachedResults q with
    | some cached => simpa using h
    | none =>
      cases ha : api q with
      | ok results => simpa using h
      | error err => simp
  | selection dapi d =>
    simp only [coordinatorStep]
    unfold handleSelection
    cases hd : dapi d.name with
    | ok details => simpa using h
    | error err => simp

/-- Witness for C10: an input-change step on a state whose error is set. -/
theorem error_persists_witness :
    fixtureErrState.error ≠ none ∧
      (coordinatorStep (CoordinatorStep.inputChange "y") fixtureErrState).error ≠ none :=
  ⟨by decide, error_persists (CoordinatorStep.inputChange "y") fixtureErrState (by decide)⟩

/-- Claim C5: for every result list and non-empty query, the prioritizer
returns an ordering in which every destination whose name starts with the
query's first character (case-insensitively) precedes every destination
whose name does not, each partition is ordered alphabetically by the
locale comparison of names, the output is a permutation of the input, and
on query "a" with destinations [Banana, Apple, Avocado] the output order
is [Apple, Avocado, Banana]. -/
theorem prioritizeDestinations_spec (destinations : List Destination) (query : String)
    (hq : query ≠ "") :
    ((prioritizeDestinations destinations query).Pairwise (fun a b =>
        (startsWithQueryChar query b.name = true → startsWithQueryChar query a.name = true) ∧
        (startsWithQueryChar query a.name = startsWithQueryChar query b.name →
          nameLe a.name b.name))) ∧
      ((prioritizeDestinations destinations query).Perm destinations) ∧
      (prioritizeDestinations [destBanana, destApple, destAvocado] "a").map
          Destination.name = ["Apple", "Avocado", "Banana"] := by
  refine ⟨?_, List.perm_insertionSort _ _, by decide⟩
  have hs := List.sorted_insertionSort (prioritizeLe query) destinations
  refine List.Pairwise.imp ?_ hs
  intro a b hab
  unfold prioritizeLe at hab
  cases ha : startsWithQueryChar query a.name <;>
    cases hb : startsWithQueryChar query b.name <;>
      simp [ha, hb] at hab ⊢ <;> exact hab

/-- Witness for C5 on the Banana/Apple/Avocado list with query "a". -/
theorem prioritizeDestinations_spec_witness :
    (("a" : String) ≠ "") ∧
      (((prioritizeDestinations [destBanana, destApple, destAvocado] "a").Pairwise
          (fun a b =>
            (startsWithQueryChar "a" b.name = true →
              startsWithQueryChar "a" a.name = true) ∧
            (startsWithQueryChar "a" a.name = startsWithQueryChar "a" b.name →
              nameLe a.name b.name))) ∧
        ((prioritizeDestinations [destBanana, destApple, destAvocado] "a").Perm
          [destBanana, destApple, destAvocado]) ∧
        (prioritizeDestinations [destBanana, destApple, destAvocado] "a").map
            Destination.name = ["Apple", "Avocado", "Banana"]) :=
  ⟨by decide,
    prioritizeDestinations_spec [destBanana, destApple, destAvocado] "a" (by decide)⟩

/-- Counterexample to C6 as stated: `prioritizeDestinations` sorts the
cached array in place (`destinations.sort(...)`), so after one cache-hit
prioritization of the entry stored for "a" (the list [Banana, Apple]),
re-reading the cache entry does not yield the originally stored list. -/
theorem prioritize_mutates_cache_cex :
    lookupCache (runSearchPrio (fun _ => Except.error none)
        ⟨"a", [], none, none, none, [("a", [destBanana, destApple])]⟩ "a").1.cachedResults
        "a" ≠ some [destBanana, destApple] := by
  decide

theorem lookupCache_cacheUpdate (c : List (String × List Destination)) (q : String)
    (l st : List Destination) (h : lookupCache c q = some st) :
    lookupCache (cacheUpdate c q l) q = some l := by
  induction c with
  | nil => simp [lookupCache] at h
  | cons e es ih =>
    by_cases he : e.1 = q
    · simp [lookupCache, cacheUpdate, he]
    · have h2 : lookupCache es q = some st := by
        simpa [lookupCache, he] using h
      simpa [lookupCache, cacheUpdate, he] using ih h2

/-- Claim C6, amended: the prioritizer sorts the list it is given in place
and returns that same list, so a cache-hit prioritization overwrites the
cache entry with the prioritized ordering; the entry afterwards holds
exactly the prioritized list — a permutation of the originally stored
elements — and further prioritizations with the same query leave it fixed,
but it is not in general the originally stored order. -/
theorem runSearchPrio_cache_hit_spec
    (api : String → Except (Option String) (List Destination)) (s : SessionState)
    (query : String) (stored : List Destination)
    (hhit : lookupCache s.cachedResults query = some stored) :
    (runSearchPrio api s query).2 = false ∧
      (runSearchPrio api s query).1.options = prioritizeDestinations stored query ∧
      lookupCache (runSearchPrio api s query).1.cachedResults query =
        some (prioritizeDestinations stored query) ∧
      (prioritizeDestinations stored query).Perm stored ∧
      prioritizeDestinations (prioritizeDestinations stored query) query =
        prioritizeDestinations stored query := by
  refine ⟨?_, ?_, ?_, List.perm_insertionSort _ _, ?_⟩
  · unfold runSearchPrio
    rw [hhit]
  · unfold runSearchPrio
    rw [hhit]
  · unfold runSearchPrio
    rw [hhit]
    exact lookupCache_cacheUpdate s.cachedResults query _ stored hhit
  · unfold prioritizeDestinations
    exact List.Sorted.insertionSort_eq (List.sorted_insertionSort _ _)

/-- Witness for the amended C6 on a one-entry cache holding
[Banana, Apple] for the query "a". -/
theorem runSearchPrio_cache_hit_spec_witness :
    (lookupCache [("a", [destBanana, destApple])] "a" = some [destBanana, destApple]) ∧
      ((runSearchPrio (fun _ => Except.error none)
          ⟨"a", [], none, none, none, [("a", [destBanana, destApple])]⟩ "a").2 = false ∧
        (runSearchPrio (fun _ => Except.error none)
            ⟨"a", [], none, none, none, [("a", [destBanana, destApple])]⟩ "a").1.options =
          prioritizeDestinations [destBanana, destApple] "a" ∧
        lookupCache (runSearchPrio (fun _ => Except.error none)
            ⟨"a", [], none, none, none,
              [("a", [destBanana, destApple])]⟩ "a").1.cachedResults "a" =
          some (prioritizeDestinations [destBanana, destApple] "a") ∧
        (prioritizeDestinations [destBanana, destApple] "a").Perm
          [destBanana, destApple] ∧
        prioritizeDestinations (prioritizeDestinations [destBanana, destApple] "a") "a" =
          prioritizeDestinations [destBanana, destApple] "a") :=
  ⟨by decide,
    runSearchPrio_cache_hit_spec (fun _ => Except.error none)
      ⟨"a", [], none, none, none, [("a", [destBanana, destApple])]⟩ "a"
      [destBanana, destApple] (by decide)⟩

end TravelDest
